import Mathlib

/-!
Shallow embedding of the core numerical components of the ACTS
track-reconstruction toolkit (trajectory propagation and Kalman-filter
state estimation), together with theorems settling the specification
claims about them.

Scalars are modelled by `ℚ` (the C++ code computes with `double`; all
algebraic structure of the algorithms is rational except for the calls
to `std::sqrt` and `std::pow(·, 0.25)`, which are modelled by explicit
function parameters).  Matrices are Mathlib matrices over `Fin n`.
-/

namespace ActsSpec

/-! ## Gain matrix updater (Acts/Fitter/GainMatrixUpdater.hpp)

The updater is a C++ template; the repository's own unit test
(`GainMatrixUpdaterTests.cpp`) instantiates it with 6-dimensional bound
parameters and a 2-dimensional measurement, and those are the dimensions
embedded here.  `H` is the projection operator of the calibrated
measurement, `V` its covariance, `P` the predicted covariance. -/

abbrev BoundVec := Fin 6 → ℚ
abbrev BoundMat := Matrix (Fin 6) (Fin 6) ℚ
abbrev MeasVec := Fin 2 → ℚ
abbrev MeasCov := Matrix (Fin 2) (Fin 2) ℚ
abbrev ProjMat := Matrix (Fin 2) (Fin 6) ℚ

/-- Determinant of a 2x2 matrix, written out as Eigen's fixed-size
determinant computes it. -/
def det2 (A : MeasCov) : ℚ :=
  A 0 0 * A 1 1 - A 0 1 * A 1 0

/-- The 2x2 matrix inverse by the cofactor formula, as Eigen's fixed-size
`.inverse()` computes it.  Since `(0 : ℚ)⁻¹ = 0`, a singular input yields
the zero matrix here, where the C++ `double` computation would divide by
zero and produce non-finite entries; no error is raised in either case. -/
def inv2 (A : MeasCov) : MeasCov :=
  (det2 A)⁻¹ • Matrix.of ![![A 1 1, -(A 0 1)], ![-(A 1 0), A 0 0]]

/-- Modelled from the spec: `Measurement::residual` (the measurement class
in `Acts/EventData/Measurement.hpp` is not part of the provided sources);
spec 4.2: "Residual = measured vector − (projection · predicted vector)".
The local coordinates measured here are non-cyclic, so no angle wrapping
is involved. -/
def residual (m : MeasVec) (H : ProjMat) (pars : BoundVec) : MeasVec :=
  m - H.mulVec pars

/-- The Kalman gain matrix exactly as `GainMatrixUpdater::operator()`
computes it: `K = P * Hᵀ * (H * P * Hᵀ + V).inverse()`. -/
def gainMatrix (P : BoundMat) (H : ProjMat) (V : MeasCov) :
    Matrix (Fin 6) (Fin 2) ℚ :=
  P * H.transpose * inv2 (H * P * H.transpose + V)

/-- Result record of one measurement update: the boolean returned by
`operator()`, the filtered parameter vector, the filtered covariance and
the chi-square stored into the track state. -/
structure UpdateResult where
  ok : Bool
  filtered : BoundVec
  filteredCov : BoundMat
  chi2 : ℚ

/-- Embedding of `GainMatrixUpdater::operator()` (the body of the
`std::visit` lambda plus the final `return true`):
gain matrix, filtered parameters, filtered covariance, and the
chi-square computed from the residual of the *filtered* parameters with
the covariance `(I - H*K) * V` of the filtered residual.  The function
has no error channel; the code ends with `// always succeed, no outlier
logic yet -- return true;`. -/
def gainMatrixUpdate (pred : BoundVec) (P : BoundMat) (m : MeasVec)
    (V : MeasCov) (H : ProjMat) : UpdateResult :=
  let K := gainMatrix P H V
  let filtered := pred + K.mulVec (residual m H pred)
  let filteredCov := (1 - K * H) * P
  let r := residual m H filtered
  { ok := true
    filtered := filtered
    filteredCov := filteredCov
    chi2 := Matrix.dotProduct r ((inv2 ((1 - H * K) * V)).mulVec r) }

/-! Fixed scenario of the regression test `gain_matrix_updater` in
`GainMatrixUpdaterTests.cpp`: predicted covariance diagonal
[0.08, 0.3, 1, 1, 1, 0], measurement local coordinates [-0.1, 0.45] with
covariance diagonal [0.04, 0.1], projection onto the two local
coordinates.  The predicted angles, `0.5 * M_PI` and `0.3 * M_PI` in the
test, are irrational and enter the theorem as parameters close to the
stored reference values. -/

/-- Vector of six entries, as a function on `Fin 6`. -/
def vec6 (a b c d e f : ℚ) : BoundVec := fun i =>
  if i.val = 0 then a else if i.val = 1 then b else if i.val = 2 then c
  else if i.val = 3 then d else if i.val = 4 then e else f

/-- Diagonal 6x6 matrix with given diagonal entries. -/
def diag6 (a b c d e f : ℚ) : BoundMat :=
  Matrix.diagonal (vec6 a b c d e f)

/-- Diagonal 2x2 matrix with given diagonal entries. -/
def diag2 (a b : ℚ) : MeasCov :=
  Matrix.diagonal fun i => if i.val = 0 then a else b

/-- Predicted covariance of the regression scenario. -/
def testPredCov : BoundMat := diag6 (2/25) (3/10) 1 1 1 0

/-- Measurement covariance of the regression scenario. -/
def testMeasCov : MeasCov := diag2 (1/25) (1/10)

/-- Measured local vector of the regression scenario. -/
def testMeasVec : MeasVec := fun i => if i.val = 0 then -(1/10) else 9/20

/-- Projection operator of the regression scenario: the measurement
constrains the two local coordinates of the 6-dimensional bound vector. -/
def testProj : ProjMat :=
  Matrix.of fun i j => if j.val = i.val then 1 else 0

/-- Predicted parameter vector of the regression scenario; `a2` stands
for the double `0.5 * M_PI` and `a3` for `0.3 * M_PI` of the test. -/
def testPred (a2 a3 : ℚ) : BoundVec := fun i =>
  if i.val = 0 then 3/10 else if i.val = 1 then 1/2 else if i.val = 2 then a2
  else if i.val = 3 then a3 else if i.val = 4 then 1/100 else 0

/-- Reference filtered parameters stored in the regression test. -/
def expPar : BoundVec := fun i =>
  if i.val = 0 then 333333/10^7 else if i.val = 1 then 4625/10^4
  else if i.val = 2 then 15707963/10^7 else if i.val = 3 then 9424778/10^7
  else if i.val = 4 then 1/100 else 0

/-- Reference filtered covariance stored in the regression test. -/
def expCov : BoundMat := diag6 (266667/10^7) (75/10^3) 1 1 1 0

/-- Reference chi-square stored in the regression test. -/
def expChi2 : ℚ := 133958/10^5

/-- The gain matrix of the regression scenario, evaluated. -/
def testK : Matrix (Fin 6) (Fin 2) ℚ :=
  Matrix.of fun i j =>
    if i.val = 0 ∧ j.val = 0 then 2/3
    else if i.val = 1 ∧ j.val = 1 then 3/4 else 0

/-- Filtered parameters of the regression scenario (components 2..5 are
untouched by the update since the gain matrix vanishes there). -/
def testFiltered (a2 a3 : ℚ) : BoundVec := fun i =>
  if i.val = 0 then 1/30 else if i.val = 1 then 37/80 else if i.val = 2 then a2
  else if i.val = 3 then a3 else if i.val = 4 then 1/100 else 0


/-! ## Steppers (Acts/Propagator/EigenStepper.ipp, first file of
src/unnamed/part_005, and the StraightLineStepper of
Acts/Propagator/StepperConcept.hpp)

The free (global) representation has 8 components
(x, y, z, t, dx, dy, dz, q/p).  The Runge-Kutta stage evaluations
`k1..k4`, produced by the stepper extension (`DefaultExtension`, not part
of the provided sources), and the step transport matrix `D` assembled by
`extension.finalize` are modelled as data of an abstract `StepContext`,
as are `std::pow(·, 0.25)` and `std::sqrt`. -/

abbrev Vec3 := Fin 3 → ℚ
abbrev FreeMat := Matrix (Fin 8) (Fin 8) ℚ
abbrev FreeVec := Fin 8 → ℚ

/-- Vector of three entries, as a function on `Fin 3`. -/
def vec3 (a b c : ℚ) : Vec3 := fun i =>
  if i.val = 0 then a else if i.val = 1 then b else c

/-- The L1 norm of a 3-vector (Eigen's `lpNorm<1>()`). -/
def l1norm (v : Vec3) : ℚ := |v 0| + |v 1| + |v 2|

/-- The three field-dependent Runge-Kutta stage evaluations of one trial
step (the first stage `k1` does not depend on the trial step size and is
held in the context). -/
structure RKStages where
  k2 : Vec3
  k3 : Vec3
  k4 : Vec3

/-- Modelled from the spec: abstract environment of a single
`EigenStepper::step` call.  `k1` and the map from a trial step size to
the stages `k2, k3, k4` stand for the field queries and the extension's
stage evaluations (spec 4.1 step 2, code not in the provided sources);
`transportD` stands for the step transport matrix assembled by
`extension.finalize` from the same `k1..k4` quantities; `pow025` and
`sqrt` stand for `std::pow(·, 0.25)` and `std::sqrt`. -/
structure StepContext where
  k1 : Vec3
  stages : ℚ → RKStages
  transportD : ℚ → RKStages → FreeMat
  pow025 : ℚ → ℚ
  sqrt : ℚ → ℚ
  curvTol : ℚ

/-- The propagation options consumed by the steppers: the integration
error tolerance, the step-size cutoff and the particle mass hypothesis. -/
structure PropOptions where
  tolerance : ℚ
  stepSizeCutOff : ℚ
  mass : ℚ

/-- Stepper state in the free representation, shared by the Runge-Kutta
and the straight-line stepper: position, unit direction, momentum,
charge, split time, navigation direction, adaptive step size, covariance
transport flag, free covariance, transport jacobian, full jacobian,
derivative vector and accumulated path length. -/
structure StepState where
  pos : Vec3
  dir : Vec3
  p : ℚ
  q : ℚ
  t0 : ℚ
  dt : ℚ
  navDir : ℚ
  stepSize : ℚ
  covTransport : Bool
  cov : FreeMat
  jacTransport : FreeMat
  jacobian : FreeMat
  derivative : FreeVec
  pathAccumulated : ℚ

/-- Modelled from the spec: the error enumeration named by
`EigenStepper::step` (its header is not in the provided sources); the
step either stalls on a collapsed step size or fails in the extension's
finalize call. -/
inductive EigenStepperError where
  | StepSizeStalled
  | StepInvalid

/-- Local truncation error estimate of one Runge-Kutta trial:
`max(h^2 * |k1 - k2 - k3 + k4|_1, 1e-20)`. -/
def errorEstimate (ctx : StepContext) (h : ℚ) (s : RKStages) : ℚ :=
  max (h^2 * l1norm (ctx.k1 - s.k2 - s.k3 + s.k4)) (1/10^20)

/-- The step-size scaling factor
`min(max(0.25, pow(tolerance / |2 * error|, 0.25)), 4.0)`. -/
def stepSizeScaling (ctx : StepContext) (tol err : ℚ) : ℚ :=
  min (max (1/4) (ctx.pow025 (tol / |2 * err|))) 4

/-- Outcome of the step-size adaptation loop: a stall, an accepted trial
of size `h`, or the hotfix break after 100 failed attempts, which forces
the final step to `navDir * 1` (1 mm) while `h2` and the stages retain
the values of the last tried size `hTried`. -/
inductive RKLoopOutcome where
  | stalled
  | accepted (h : ℚ) (s : RKStages)
  | forced (hFinal hTried : ℚ) (s : RKStages)

/-- The `while (!tryRungeKuttaStep(stepSize))` loop of
`EigenStepper::step`: on a failed trial the step size is scaled, the
attempt counter (here: remaining fuel, the loop is entered with 100) is
advanced, the cutoff is checked and the trial is retried. -/
def rkStepLoop (ctx : StepContext) (opts : PropOptions) (navDir : ℚ) :
    ℚ → ℕ → RKLoopOutcome
  | _, 0 => RKLoopOutcome.stalled
  | h, fuel+1 =>
    let s := ctx.stages h
    let err := errorEstimate ctx h s
    if err ≤ opts.tolerance then RKLoopOutcome.accepted h s
    else
      let sc := stepSizeScaling ctx opts.tolerance err
      if sc = 1 then RKLoopOutcome.accepted h s
      else
        let hNew := h * sc
        if fuel = 0 then RKLoopOutcome.forced (navDir * 1) h s
        else if hNew * hNew < opts.stepSizeCutOff * opts.stepSizeCutOff then
          RKLoopOutcome.stalled
        else rkStepLoop ctx opts navDir hNew fuel

/-- Direction update of an accepted step before renormalization:
`dir + h/6 * (k1 + 2*(k2 + k3) + k4)`. -/
def dirUpdate (ctx : StepContext) (h : ℚ) (s : RKStages) (dir : Vec3) :
    Vec3 :=
  dir + (h/6) • (ctx.k1 + (2:ℚ) • (s.k2 + s.k3) + s.k4)

/-- Renormalization `dir /= dir.norm()` with the model square root. -/
def renormalize (sq : ℚ → ℚ) (u : Vec3) : Vec3 :=
  (sq (Matrix.dotProduct u u))⁻¹ • u

/-- The derivative update of an accepted Runge-Kutta step:
`derivative.head<3>() = dir; derivative.segment<3>(4) = k4`. -/
def setRKDerivative (d : FreeVec) (dir k4 : Vec3) : FreeVec := fun i =>
  if hlt : i.val < 3 then dir ⟨i.val, hlt⟩
  else if h47 : 4 ≤ i.val ∧ i.val < 7 then k4 ⟨i.val - 4, by omega⟩
  else d i

/-- State mutation after the adaptation loop of `EigenStepper::step`:
transport jacobian left-multiplied by `D` (when covariance transport is
active), position updated by `h*dir + h2/6*(k1+k2+k3)`, direction
updated and renormalized, derivative refreshed, path length accumulated.
`hFinal` is the final step size, `hTried` the size of the last trial
(they differ only on the 100-attempt hotfix path, where `h2` and the
stages are stale). -/
def rkAccept (ctx : StepContext) (st : StepState) (hFinal hTried : ℚ)
    (s : RKStages) : ℚ × StepState :=
  let h2 := hTried * hTried
  let jac := if st.covTransport then ctx.transportD hFinal s * st.jacTransport
             else st.jacTransport
  let pos := st.pos + hFinal • st.dir + (h2/6) • (ctx.k1 + s.k2 + s.k3)
  let dir := renormalize ctx.sqrt (dirUpdate ctx hFinal s st.dir)
  let deriv := if st.covTransport then setRKDerivative st.derivative dir s.k4
               else st.derivative
  (hFinal, { st with
              pos := pos
              dir := dir
              stepSize := hFinal
              jacTransport := jac
              derivative := deriv
              pathAccumulated := st.pathAccumulated + hFinal })

/-- Embedding of `EigenStepper::step` (first file of
src/unnamed/part_005): run the adaptation loop with 100 attempts, then
either report the stall error to the caller or accept the step. -/
def eigenStep (ctx : StepContext) (opts : PropOptions) (st : StepState) :
    Except EigenStepperError (ℚ × StepState) :=
  match rkStepLoop ctx opts st.navDir st.stepSize 100 with
  | RKLoopOutcome.stalled => Except.error EigenStepperError.StepSizeStalled
  | RKLoopOutcome.accepted h s => Except.ok (rkAccept ctx st h h s)
  | RKLoopOutcome.forced hF hT s => Except.ok (rkAccept ctx st hF hT s)

/-! ## Straight-line stepper and the common stepper interface
(Acts/Propagator/StepperConcept.hpp) -/

/-- The 3x3 identity block at rows 0..2, columns 4..6 of an 8x8 free
matrix: the pure-translation part of the transport jacobian. -/
def translationBlock : FreeMat :=
  Matrix.of fun i j => if i.val < 3 ∧ j.val = i.val + 4 then 1 else 0

/-- The unit entry at row 3 (time), column 7 (q/p) of an 8x8 free
matrix: the time row of the transport jacobian. -/
def timeBlock : FreeMat :=
  Matrix.of fun i j => if i.val = 3 ∧ j.val = 7 then 1 else 0

/-- The step transport matrix of `StraightLineStepper::step` as the code
assembles it: identity, then `D.block<3,3>(0,4) = h * I`, then
`D(3,7) = c` with `c = h * mass^2 / (p * dtds)`. -/
def slD (h c : ℚ) : FreeMat :=
  Matrix.of fun i j =>
    (if i = j then 1 else 0) + (if i.val < 3 ∧ j.val = i.val + 4 then h else 0)
    + (if i.val = 3 ∧ j.val = 7 then c else 0)

/-- Derivative update of a straight-line step:
`derivative(3) = dtds; derivative.head<3>() = dir`. -/
def setSLDerivative (d : FreeVec) (dir : Vec3) (dtds : ℚ) : FreeVec :=
  fun i =>
    if hlt : i.val < 3 then dir ⟨i.val, hlt⟩
    else if i.val = 3 then dtds else d i

/-- Embedding of `StraightLineStepper::step`: advance the position by
`h * dir`, propagate the time by `h * dtds` with
`dtds = hypot(1, mass/p)`, left-multiply the transport jacobian by the
translation matrix `D` when covariance transport is active, and
accumulate the path length.  The direction is not touched.  The step
always succeeds (error type `Empty`). -/
def slStep (sq : ℚ → ℚ) (opts : PropOptions) (st : StepState) :
    Except Empty (ℚ × StepState) :=
  let h := st.stepSize
  let dtds := sq (1 + opts.mass / st.p * (opts.mass / st.p))
  if st.covTransport then
    Except.ok (h, { st with
      pos := st.pos + h • st.dir
      dt := st.dt + h * dtds
      jacTransport := slD h (h * opts.mass * opts.mass / (st.p * dtds)) *
        st.jacTransport
      derivative := setSLDerivative st.derivative st.dir dtds
      pathAccumulated := st.pathAccumulated + h })
  else
    Except.ok (h, { st with
      pos := st.pos + h • st.dir
      dt := st.dt + h * dtds
      pathAccumulated := st.pathAccumulated + h })

/-- Embedding of the `StraightLineStepper::State` constructor from
initial track parameters (the `BoundSymMatrix` overload): the direction
is the normalized momentum, `p` its norm, `q` the charge, the step size
is `ndir * |ssize|`, and when a covariance is supplied the transport
flag is set and the covariance is pushed to the free frame with the
surface-supplied `initJacobianToGlobal` jacobian (passed in as `jacG`).
No floor of any kind is applied to the stored quantities. -/
def mkSLState (sq : ℚ → ℚ) (jacG : Matrix (Fin 8) (Fin 6) ℚ)
    (pos mom : Vec3) (charge time ndir ssize : ℚ)
    (covOpt : Option BoundMat) : StepState :=
  let pnorm := sq (Matrix.dotProduct mom mom)
  { pos := pos
    dir := pnorm⁻¹ • mom
    p := pnorm
    q := charge
    t0 := time
    dt := 0
    navDir := ndir
    stepSize := ndir * |ssize|
    covTransport := covOpt.isSome
    cov := match covOpt with
      | some C => jacG * C * jacG.transpose
      | none => 0
    jacTransport := 1
    jacobian := 1
    derivative := 0
    pathAccumulated := 0 }

/-- Embedding of the position/direction/momentum/time `update` overload,
shared verbatim by `EigenStepper::update` and
`StraightLineStepper::update`: the supplied values are copied into the
state unchanged. -/
def updateFree (st : StepState) (upos udir : Vec3) (up ut : ℚ) :
    StepState :=
  { st with pos := upos, dir := udir, p := up, dt := ut }

/-- The data both steppers pull from a target surface: the
`initJacobianToLocal` jacobian and the `derivativeFactors` row vector
(abstract; the surface classes are external collaborators). -/
structure SurfaceData where
  jacToLocal : Vec3 → Vec3 → Matrix (Fin 6) (Fin 8) ℚ
  derivativeFactors : Vec3 → Vec3 → FreeMat → FreeVec

/-- The data of the bound/curvilinear parameters produced by a state
binding: optional local covariance, position, momentum vector, charge
and time. -/
structure BoundParamsData where
  cov : Option BoundMat
  pos : Vec3
  mom : Vec3
  q : ℚ
  t : ℚ

/-- Row vector `dir^T * jacTransport.topLeftCorner<3, 8>`. -/
def topRowsDot (dir : Vec3) (J : FreeMat) : FreeVec := fun j =>
  dir 0 * J 0 j + dir 1 * J 1 j + dir 2 * J 2 j

/-- The free-to-curvilinear jacobian built by both steppers from the
current direction: the normal curvilinear frame under
`|cosTheta| < curvTol` (the `s_curvilinearProjTolerance` constant), the
alternative frame under grazing incidence, plus the fixed time and
angular entries. -/
def freeToCurvJac (sq : ℚ → ℚ) (curvTol : ℚ) (dir : Vec3) :
    Matrix (Fin 6) (Fin 8) ℚ :=
  let x := dir 0
  let y := dir 1
  let z := dir 2
  let cosTheta := z
  let sinTheta := sq (x * x + y * y)
  let invSinTheta := 1 / sinTheta
  let cosPhi := x * invSinTheta
  let sinPhi := y * invSinTheta
  let c := sq (y * y + z * z)
  let invC := 1 / c
  Matrix.of fun i j =>
    if i.val = 0 ∧ j.val = 0 then
      (if |cosTheta| < curvTol then -sinPhi else 0)
    else if i.val = 0 ∧ j.val = 1 then
      (if |cosTheta| < curvTol then cosPhi else -z * invC)
    else if i.val = 0 ∧ j.val = 2 then
      (if |cosTheta| < curvTol then 0 else y * invC)
    else if i.val = 1 ∧ j.val = 0 then
      (if |cosTheta| < curvTol then -cosPhi * cosTheta else c)
    else if i.val = 1 ∧ j.val = 1 then
      (if |cosTheta| < curvTol then -sinPhi * cosTheta else -x * y * invC)
    else if i.val = 1 ∧ j.val = 2 then
      (if |cosTheta| < curvTol then sinTheta else -x * z * invC)
    else if i.val = 5 ∧ j.val = 3 then 1
    else if i.val = 2 ∧ j.val = 4 then -sinPhi * invSinTheta
    else if i.val = 2 ∧ j.val = 5 then cosPhi * invSinTheta
    else if i.val = 3 ∧ j.val = 6 then -invSinTheta
    else if i.val = 4 ∧ j.val = 7 then 1
    else 0

/-- Shared mutation of the curvilinear `covarianceTransport(state,
reinitialize)` of both steppers: fold the full jacobian
`jacTransport - derivative * (dir^T * jacTransport.topLeft)` into the
covariance and the accumulated jacobian; on reinitialization reset the
transport jacobian to identity. -/
def covTransportCurvCore (st : StepState) (reinit : Bool) : StepState :=
  let sfac := topRowsDot st.dir st.jacTransport
  let jacFull := st.jacTransport - Matrix.vecMulVec st.derivative sfac
  { st with
    cov := jacFull * st.cov * jacFull.transpose
    jacTransport := if reinit then 1 else st.jacTransport
    jacobian := jacFull * st.jacobian }

/-- Shared mutation of the surface-targeted `covarianceTransport(state,
surface, reinitialize)` of both steppers; reinitialization additionally
resets the derivative. -/
def covTransportSurfCore (surf : SurfaceData) (st : StepState)
    (reinit : Bool) : StepState :=
  let sVec := surf.derivativeFactors st.pos st.dir st.jacTransport
  let jacFull := st.jacTransport - Matrix.vecMulVec st.derivative sVec
  { st with
    cov := jacFull * st.cov * jacFull.transpose
    jacTransport := if reinit then 1 else st.jacTransport
    derivative := if reinit then 0 else st.derivative
    jacobian := jacFull * st.jacobian }

/-- `EigenStepper::boundState`: transport the covariance to the surface
(when active), project it with the surface's to-local jacobian, build
the bound parameters, return them with the accumulated jacobian and
path length, and reset the accumulated jacobian on reinitialization. -/
def eigenBoundState (surf : SurfaceData) (st : StepState) (reinit : Bool) :
    (BoundParamsData × FreeMat × ℚ) × StepState :=
  let st1 := if st.covTransport then covTransportSurfCore surf st reinit
             else st
  let jl := surf.jacToLocal st.pos st.dir
  let covOut := if st.covTransport then some (jl * st1.cov * jl.transpose)
                else none
  ((⟨covOut, st1.pos, st1.p • st1.dir, st1.q, st1.t0 + st1.dt⟩,
    st1.jacobian, st1.pathAccumulated),
   if reinit then { st1 with jacobian := 1 } else st1)

/-- `EigenStepper::curvilinearState`: like `boundState` but against the
curvilinear frame defined by the current direction. -/
def eigenCurvilinearState (sq : ℚ → ℚ) (curvTol : ℚ) (st : StepState)
    (reinit : Bool) : (BoundParamsData × FreeMat × ℚ) × StepState :=
  let st1 := if st.covTransport then covTransportCurvCore st reinit else st
  let jc := freeToCurvJac sq curvTol st.dir
  let covOut := if st.covTransport then some (jc * st1.cov * jc.transpose)
                else none
  ((⟨covOut, st1.pos, st1.p • st1.dir, st1.q, st1.t0 + st1.dt⟩,
    st1.jacobian, st1.pathAccumulated),
   if reinit then { st1 with jacobian := 1 } else st1)

/-- `StraightLineStepper::boundState`: the local jacobian and covariance
are projected with the surface's to-local jacobian (identity jacobian
when covariance transport is off). -/
def slBoundState (surf : SurfaceData) (st : StepState) (reinit : Bool) :
    (BoundParamsData × BoundMat × ℚ) × StepState :=
  let st1 := if st.covTransport then covTransportSurfCore surf st reinit
             else st
  let jl := surf.jacToLocal st.pos st.dir
  let jacOut : BoundMat :=
    if st.covTransport then jl * st1.jacobian * jl.transpose else 1
  let covOut := if st.covTransport then some (jl * st1.cov * jl.transpose)
                else none
  ((⟨covOut, st1.pos, st1.p • st1.dir, st1.q, st1.t0 + st1.dt⟩,
    jacOut, st1.pathAccumulated),
   if reinit then { st1 with jacobian := 1 } else st1)

/-- `StraightLineStepper::curvilinearState` (its `freeToBoundJacobian`
call names the `freeToCurvilinearJacobian` member, the only such
function of the class). -/
def slCurvilinearState (sq : ℚ → ℚ) (curvTol : ℚ) (st : StepState)
    (reinit : Bool) : (BoundParamsData × BoundMat × ℚ) × StepState :=
  let st1 := if st.covTransport then covTransportCurvCore st reinit else st
  let jc := freeToCurvJac sq curvTol st.dir
  let jacOut : BoundMat :=
    if st.covTransport then jc * st1.jacobian * jc.transpose else 1
  let covOut := if st.covTransport then some (jc * st1.cov * jc.transpose)
                else none
  ((⟨covOut, st1.pos, st1.p • st1.dir, st1.q, st1.t0 + st1.dt⟩,
    jacOut, st1.pathAccumulated),
   if reinit then { st1 with jacobian := 1 } else st1)

/-- The common stepper interface of spec 4.1 offered by both steppers:
step, update, the two covariance-transport overloads, boundState and
curvilinearState.  `E` is the per-step error type and `J` the jacobian
type carried by the bound/curvilinear state (they are the only types in
which the two C++ steppers' signatures differ). -/
structure StepperOps (E J : Type) where
  step : PropOptions → StepState → Except E (ℚ × StepState)
  update : StepState → Vec3 → Vec3 → ℚ → ℚ → StepState
  covarianceTransport : StepState → Bool → StepState
  covarianceTransportSurf : SurfaceData → StepState → Bool → StepState
  boundState : SurfaceData → StepState → Bool →
    (BoundParamsData × J × ℚ) × StepState
  curvilinearState : StepState → Bool → (BoundParamsData × J × ℚ) × StepState

/-- The Runge-Kutta (Eigen) stepper packaged behind the common
interface. -/
def eigenStepperOps (ctx : StepContext) :
    StepperOps EigenStepperError FreeMat :=
  { step := eigenStep ctx
    update := updateFree
    covarianceTransport := covTransportCurvCore
    covarianceTransportSurf := covTransportSurfCore
    boundState := eigenBoundState
    curvilinearState := eigenCurvilinearState ctx.sqrt ctx.curvTol }

/-- The straight-line stepper packaged behind the same interface. -/
def slStepperOps (sq : ℚ → ℚ) (curvTol : ℚ) : StepperOps Empty BoundMat :=
  { step := slStep sq
    update := updateFree
    covarianceTransport := covTransportCurvCore
    covarianceTransportSurf := covTransportSurfCore
    boundState := slBoundState
    curvilinearState := slCurvilinearState sq curvTol }

/-- Fixture context for witnesses: zero field stages, trivial transport
matrix, constant 1/2 fourth root, identity square-root stand-in. -/
def ctx0 : StepContext :=
  { k1 := 0
    stages := fun _ => ⟨0, 0, 0⟩
    transportD := fun _ _ => 1
    pow025 := fun _ => 1/2
    sqrt := fun x => x
    curvTol := 1 }

/-- Fixture options for witnesses: tolerance 1, no cutoff, massless. -/
def opts0 : PropOptions := ⟨1, 0, 0⟩

/-- Fixture options for the stall witness: tolerance 0 and cutoff 1, so
that the first rescaled trial collapses below the cutoff. -/
def optsStall : PropOptions := ⟨0, 1, 0⟩

/-- Fixture stepper state for witnesses: unit direction along x, unit
step size, forward navigation, covariance transport on. -/
def st0 : StepState :=
  { pos := 0
    dir := vec3 1 0 0
    p := 1
    q := 1
    t0 := 0
    dt := 0
    navDir := 1
    stepSize := 1
    covTransport := true
    cov := 1
    jacTransport := 1
    jacobian := 1
    derivative := 0
    pathAccumulated := 0 }

/-! ## Spec-modelled propagation (for the additivity property)

The Propagator and the full numeric stepper chain backing the additive
regression tests are not part of the provided sources; following the
spec they are modelled as the iteration of a deterministic per-step
evolution of the free state together with the per-step transport
jacobian accumulation `jac <- D * jac` (spec 4.1 steps 5-6), and an
intermediate stop is a state binding that folds the accumulated jacobian
into the covariance and resets the jacobian to identity (spec section 3,
transport-jacobian invariant). -/

/-- Modelled from the spec: the state carried across propagation steps,
reduced to what the additivity property concerns: the free state vector,
the covariance in the frame of the last reset point, and the transport
jacobian accumulated since that point. -/
structure PropState where
  free : FreeVec
  cov : FreeMat
  jac : FreeMat

/-- Modelled from the spec: one propagation step with deterministic
free-state evolution `f` and per-step transport matrix `D` (spec 4.1:
the step transport matrix is assembled from the local field data, hence
a function of the free state); the jacobian is left-multiplied, the
covariance stays in the reset frame. -/
def specPropStep (f : FreeVec → FreeVec) (D : FreeVec → FreeMat)
    (s : PropState) : PropState :=
  { free := f s.free
    cov := s.cov
    jac := D s.free * s.jac }

/-- Modelled from the spec: an `n`-step propagation (the tests cap the
step size, so a fixed path length is a fixed number of steps). -/
def specPropagateN (f : FreeVec → FreeVec) (D : FreeVec → FreeMat) :
    ℕ → PropState → PropState
  | 0, s => s
  | n+1, s => specPropagateN f D n (specPropStep f D s)

/-- Modelled from the spec: the state binding at a stop (surface or
curvilinear): the accumulated jacobian is folded into the covariance as
`J * C * Jᵀ` and then reset to identity. -/
def specBind (s : PropState) : PropState :=
  { free := s.free
    cov := s.jac * s.cov * s.jac.transpose
    jac := 1 }

/-- The transport jacobian accumulated over `n` steps from free state
`x` (with identity start). -/
def jacProd (f : FreeVec → FreeVec) (D : FreeVec → FreeMat) :
    ℕ → FreeVec → FreeMat
  | 0, _ => 1
  | n+1, x => jacProd f D n (f x) * D x

/-- `n`-fold iterate of the free-state evolution. -/
def freeIter (f : FreeVec → FreeVec) : ℕ → FreeVec → FreeVec
  | 0, x => x
  | n+1, x => freeIter f n (f x)

end ActsSpec

namespace ActsSpec

/-! ## Helper lemmas (shared) -/

/-- The 2x2 determinant written out agrees with `Matrix.det`. -/
theorem det2_eq_det (A : MeasCov) : det2 A = A.det := by
  rw [Matrix.det_fin_two]; rfl

/-- The cofactor-formula inverse agrees with Mathlib's matrix inverse
(both assign the zero matrix to a singular input). -/
theorem inv2_eq_inv (A : MeasCov) : inv2 A = A⁻¹ := by
  rw [Matrix.inv_def, Matrix.adjugate_fin_two, Ring.inverse_eq_inv,
    ← det2_eq_det]
  rfl

/-- On singular input the cofactor-formula inverse degenerates to the
zero matrix (the C++ double computation would divide by zero instead). -/
theorem inv2_singular (A : MeasCov) (h : det2 A = 0) : inv2 A = 0 := by
  unfold inv2
  rw [h]
  simp

/-- Innovation covariance of the regression scenario, evaluated. -/
theorem innov_eval :
    testProj * testPredCov * testProj.transpose + testMeasCov =
      diag2 (3/25) (2/5) := by
  ext i j
  fin_cases i <;> fin_cases j <;>
    norm_num [testProj, testPredCov, testMeasCov, diag2, diag6, vec6,
      Matrix.diagonal, Matrix.mul_apply, Fin.sum_univ_succ, Matrix.transpose,
      Fin.ext_iff]

/-- Inverse of the regression innovation covariance, evaluated. -/
theorem inv2_eval : inv2 (diag2 (3/25) (2/5)) = diag2 (25/3) (5/2) := by
  ext i j
  fin_cases i <;> fin_cases j <;>
    norm_num [inv2, det2, diag2, Matrix.diagonal, Fin.ext_iff]

/-- Gain matrix of the regression scenario, evaluated. -/
theorem gainMatrix_eval :
    gainMatrix testPredCov testProj testMeasCov = testK := by
  unfold gainMatrix
  rw [innov_eval, inv2_eval]
  ext i j
  fin_cases i <;> fin_cases j <;>
    norm_num [testPredCov, testProj, testK, diag2, diag6, vec6,
      Matrix.diagonal, Matrix.mul_apply, Fin.sum_univ_succ, Matrix.transpose,
      Fin.ext_iff]

end ActsSpec

namespace ActsSpec

/-- The `filtered` field of the update result, unfolded. -/
theorem upd_filtered_def (pred : BoundVec) (P : BoundMat) (m : MeasVec)
    (V : MeasCov) (H : ProjMat) :
    (gainMatrixUpdate pred P m V H).filtered =
      pred + (gainMatrix P H V).mulVec (residual m H pred) := rfl

/-- The `filteredCov` field of the update result, unfolded. -/
theorem upd_cov_def (pred : BoundVec) (P : BoundMat) (m : MeasVec)
    (V : MeasCov) (H : ProjMat) :
    (gainMatrixUpdate pred P m V H).filteredCov =
      (1 - gainMatrix P H V * H) * P := rfl

/-- The `chi2` field of the update result, unfolded: it is built from the
residual of the filtered (not the predicted) parameters. -/
theorem upd_chi2_def (pred : BoundVec) (P : BoundMat) (m : MeasVec)
    (V : MeasCov) (H : ProjMat) :
    (gainMatrixUpdate pred P m V H).chi2 =
      Matrix.dotProduct (residual m H ((gainMatrixUpdate pred P m V H).filtered))
        ((inv2 ((1 - H * gainMatrix P H V) * V)).mulVec
          (residual m H ((gainMatrixUpdate pred P m V H).filtered))) := rfl

/-- Residual of the predicted parameters in the regression scenario. -/
theorem residual_pred_eval (a2 a3 : ℚ) :
    residual testMeasVec testProj (testPred a2 a3) =
      fun j => if j.val = 0 then -(2/5) else -(1/20) := by
  funext j
  fin_cases j <;>
    norm_num [residual, testPred, testMeasVec, testProj, Matrix.mulVec,
      Matrix.dotProduct, Fin.sum_univ_succ, Fin.ext_iff]

/-- Gain times predicted residual in the regression scenario. -/
theorem gain_res_eval :
    testK.mulVec (fun j => if j.val = 0 then -(2/5) else -(1/20)) =
      fun i => if i.val = 0 then -(4/15) else if i.val = 1 then -(3/80)
               else 0 := by
  funext i
  fin_cases i <;>
    norm_num [testK, Matrix.mulVec, Matrix.dotProduct, Fin.sum_univ_succ,
      Fin.ext_iff]

/-- Filtered parameters of the regression scenario, evaluated. -/
theorem filtered_eval (a2 a3 : ℚ) :
    (gainMatrixUpdate (testPred a2 a3) testPredCov testMeasVec testMeasCov
      testProj).filtered = testFiltered a2 a3 := by
  rw [upd_filtered_def, gainMatrix_eval, residual_pred_eval, gain_res_eval]
  funext i
  fin_cases i <;> norm_num [testPred, testFiltered, Fin.ext_iff]

/-- Gain times projection in the regression scenario, evaluated. -/
theorem KH_eval : testK * testProj = diag6 (2/3) (3/4) 0 0 0 0 := by
  ext i j
  fin_cases i <;> fin_cases j <;>
    norm_num [testProj, testK, diag6, vec6, Matrix.diagonal, Matrix.mul_apply,
      Fin.sum_univ_succ, Fin.ext_iff]

/-- Filtered covariance of the regression scenario, evaluated. -/
theorem cov_eval (a2 a3 : ℚ) :
    (gainMatrixUpdate (testPred a2 a3) testPredCov testMeasVec testMeasCov
      testProj).filteredCov = diag6 (2/75) (3/40) 1 1 1 0 := by
  rw [upd_cov_def, gainMatrix_eval, KH_eval]
  unfold testPredCov diag6
  rw [← Matrix.diagonal_one, Matrix.diagonal_sub,
    Matrix.diagonal_mul_diagonal]
  refine congrArg Matrix.diagonal (funext fun i => ?_)
  fin_cases i <;> norm_num [vec6]

/-- Projection times gain in the regression scenario, evaluated. -/
theorem HK_eval : testProj * testK = diag2 (2/3) (3/4) := by
  ext i j
  fin_cases i <;> fin_cases j <;>
    norm_num [testProj, testK, diag2, Matrix.diagonal, Matrix.mul_apply,
      Fin.sum_univ_succ, Fin.ext_iff]

/-- Filtered-residual covariance `(I - H*K) * V` of the regression
scenario, evaluated. -/
theorem rescov_eval :
    (1 - testProj * testK) * testMeasCov = diag2 (1/75) (1/40) := by
  rw [HK_eval]
  unfold testMeasCov diag2
  rw [← Matrix.diagonal_one, Matrix.diagonal_sub,
    Matrix.diagonal_mul_diagonal]
  refine congrArg Matrix.diagonal (funext fun i => ?_)
  fin_cases i <;> norm_num

/-- Inverse of the filtered-residual covariance, evaluated. -/
theorem rescov_inv_eval : inv2 (diag2 (1/75) (1/40)) = diag2 75 40 := by
  ext i j
  fin_cases i <;> fin_cases j <;> norm_num [inv2, det2, diag2, Fin.ext_iff]

/-- Chi-square of the regression scenario, evaluated:
`4/3 + 1/160 = 643/480 = 1.3395833...`. -/
theorem chi2_eval (a2 a3 : ℚ) :
    (gainMatrixUpdate (testPred a2 a3) testPredCov testMeasVec testMeasCov
      testProj).chi2 = 643/480 := by
  rw [upd_chi2_def, filtered_eval, gainMatrix_eval, rescov_eval,
    rescov_inv_eval]
  norm_num [residual, testFiltered, testMeasVec, testProj, diag2,
    Matrix.mulVec, Matrix.dotProduct, Fin.sum_univ_succ, Fin.ext_iff]

end ActsSpec

namespace ActsSpec

/-! ## Claim theorems: gain matrix updater -/

/-- C1: for every predicted bound state `(pred, P)` and calibrated
measurement `(m, V, H)` whose innovation covariance is invertible, the
gain matrix updater computes the gain `K = P * Hᵀ * (H * P * Hᵀ + V)⁻¹`,
sets the filtered parameters to `pred + K · (m - H·pred)` and the
filtered covariance to `(I - K * H) * P`. -/
theorem gain_matrix_update_formulas (pred : BoundVec) (P : BoundMat)
    (m : MeasVec) (V : MeasCov) (H : ProjMat)
    (_hdet : det2 (H * P * H.transpose + V) ≠ 0) :
    gainMatrix P H V = P * H.transpose * (H * P * H.transpose + V)⁻¹ ∧
    (gainMatrixUpdate pred P m V H).filtered =
      pred + (P * H.transpose * (H * P * H.transpose + V)⁻¹).mulVec
        (m - H.mulVec pred) ∧
    (gainMatrixUpdate pred P m V H).filteredCov =
      (1 - P * H.transpose * (H * P * H.transpose + V)⁻¹ * H) * P := by
  have hg : gainMatrix P H V =
      P * H.transpose * (H * P * H.transpose + V)⁻¹ := by
    unfold gainMatrix
    rw [inv2_eq_inv]
  refine ⟨hg, ?_, ?_⟩
  · rw [upd_filtered_def, hg]; rfl
  · rw [upd_cov_def, hg]

/-- Witness for C1: the hypothesis and conclusion hold at the concrete
regression-test input. -/
theorem gain_matrix_update_formulas_witness :
    det2 (testProj * testPredCov * testProj.transpose + testMeasCov) ≠ 0 ∧
    gainMatrix testPredCov testProj testMeasCov =
      testPredCov * testProj.transpose *
        (testProj * testPredCov * testProj.transpose + testMeasCov)⁻¹ := by
  have hdet :
      det2 (testProj * testPredCov * testProj.transpose + testMeasCov) ≠ 0 := by
    rw [innov_eval]
    norm_num [det2, diag2, Matrix.diagonal]
  exact ⟨hdet, (gain_matrix_update_formulas 0 testPredCov testMeasVec
    testMeasCov testProj hdet).1⟩

/-- C2: the chi-square set by the updater is computed from the filtered
state: `chi2 = rᵀ ((I - H*K) V)⁻¹ r` with `r` the residual of the
filtered parameters; and on the fixed regression scenario (predicted
covariance diagonal [0.08, 0.3, 1, 1, 1, 0], 2D measurement [-0.1, 0.45]
with covariance diagonal [0.04, 0.1]) the filtered parameters, filtered
covariance and chi-square match the stored reference values within
1e-6, 1e-6 and 1e-4 respectively; `a2, a3` are the predicted angles
`0.5 * M_PI`, `0.3 * M_PI` of the test, constrained to lie within 1e-6 of
the reference values as the doubles do. -/
theorem gain_matrix_update_regression (a2 a3 : ℚ)
    (h2 : |a2 - 15707963/10^7| ≤ 1/10^6)
    (h3 : |a3 - 9424778/10^7| ≤ 1/10^6) :
    (gainMatrixUpdate (testPred a2 a3) testPredCov testMeasVec testMeasCov
        testProj).chi2 =
      Matrix.dotProduct
        (residual testMeasVec testProj
          ((gainMatrixUpdate (testPred a2 a3) testPredCov testMeasVec
            testMeasCov testProj).filtered))
        ((inv2 ((1 - testProj * gainMatrix testPredCov testProj testMeasCov) *
            testMeasCov)).mulVec
          (residual testMeasVec testProj
            ((gainMatrixUpdate (testPred a2 a3) testPredCov testMeasVec
              testMeasCov testProj).filtered))) ∧
    (∀ i, |(gainMatrixUpdate (testPred a2 a3) testPredCov testMeasVec
        testMeasCov testProj).filtered i - expPar i| ≤ 1/10^6) ∧
    (∀ i j, |(gainMatrixUpdate (testPred a2 a3) testPredCov testMeasVec
        testMeasCov testProj).filteredCov i j - expCov i j| ≤ 1/10^6) ∧
    |(gainMatrixUpdate (testPred a2 a3) testPredCov testMeasVec testMeasCov
        testProj).chi2 - expChi2| ≤ 1/10^4 := by
  refine ⟨upd_chi2_def _ _ _ _ _, ?_, ?_, ?_⟩
  · intro i
    rw [filtered_eval]
    fin_cases i
    · norm_num [testFiltered, expPar, abs_le]
    · norm_num [testFiltered, expPar, abs_le]
    · norm_num [testFiltered, expPar] at h2 ⊢
      exact h2
    · norm_num [testFiltered, expPar] at h3 ⊢
      exact h3
    · norm_num [testFiltered, expPar, abs_le]
    · norm_num [testFiltered, expPar, abs_le]
  · intro i j
    rw [cov_eval]
    fin_cases i <;> fin_cases j <;>
      norm_num [diag6, vec6, expCov, Matrix.diagonal, Fin.ext_iff, abs_le]
  · rw [chi2_eval]
    norm_num [expChi2, abs_le]

/-- Witness for C2: the hypotheses and the chi-square regression bound
hold at the concrete reference angles. -/
theorem gain_matrix_update_regression_witness :
    |(15707963/10^7 : ℚ) - 15707963/10^7| ≤ 1/10^6 ∧
    |(9424778/10^7 : ℚ) - 9424778/10^7| ≤ 1/10^6 ∧
    |(gainMatrixUpdate (testPred (15707963/10^7) (9424778/10^7)) testPredCov
        testMeasVec testMeasCov testProj).chi2 - expChi2| ≤ 1/10^4 := by
  refine ⟨by norm_num, by norm_num, ?_⟩
  exact (gain_matrix_update_regression (15707963/10^7) (9424778/10^7)
    (by norm_num) (by norm_num)).2.2.2

/-- C6 counterexample: at a concrete input whose innovation covariance is
singular (all covariances zero), the updater does not signal any error:
its only result channel, the returned boolean, is `true`. -/
theorem updater_singular_no_error_cex :
    det2 (testProj * (0 : BoundMat) * testProj.transpose + (0 : MeasCov))
        = 0 ∧
    (gainMatrixUpdate 0 (0 : BoundMat) 0 (0 : MeasCov) testProj).ok
        = true := by
  constructor
  · norm_num [det2]
  · rfl

/-- C6 amended: the updater performs no singularity check: also when the
innovation covariance is singular it returns `true`, and the inverse it
uses degenerates (zero matrix in this rational model; non-finite entries
in the C++ double computation) instead of an error being raised. -/
theorem updater_singular_returns_true (pred : BoundVec) (P : BoundMat)
    (m : MeasVec) (V : MeasCov) (H : ProjMat)
    (hdet : det2 (H * P * H.transpose + V) = 0) :
    (gainMatrixUpdate pred P m V H).ok = true ∧
    inv2 (H * P * H.transpose + V) = 0 := by
  exact ⟨rfl, inv2_singular _ hdet⟩

/-- Witness for C6's amended theorem at the concrete singular input. -/
theorem updater_singular_returns_true_witness :
    det2 (testProj * (0 : BoundMat) * testProj.transpose + (0 : MeasCov))
        = 0 ∧
    (gainMatrixUpdate 0 (0 : BoundMat) 0 (0 : MeasCov) testProj).ok
        = true ∧
    inv2 (testProj * (0 : BoundMat) * testProj.transpose + (0 : MeasCov))
        = 0 := by
  have hdet :
      det2 (testProj * (0 : BoundMat) * testProj.transpose + (0 : MeasCov))
        = 0 := by
    norm_num [det2]
  have h := updater_singular_returns_true 0 (0 : BoundMat) 0 (0 : MeasCov)
    testProj hdet
  exact ⟨hdet, h.1, h.2⟩

/-- C10: for every input, `GainMatrixUpdater::operator()` returns `true`;
the boolean result never reports an unsuccessful update. -/
theorem updater_always_returns_true (pred : BoundVec) (P : BoundMat)
    (m : MeasVec) (V : MeasCov) (H : ProjMat) :
    (gainMatrixUpdate pred P m V H).ok = true := rfl

end ActsSpec

namespace ActsSpec

/-! ## Helper lemmas: Runge-Kutta step -/

/-- The error estimate is always positive (it is floored at 1e-20). -/
theorem errorEstimate_pos (ctx : StepContext) (h : ℚ) (s : RKStages) :
    0 < errorEstimate ctx h s :=
  lt_of_lt_of_le (by norm_num) (le_max_right _ _)

/-- When the error exceeds a nonnegative tolerance the scaling factor is
strictly below 1 (so the `scaling == 1` break of the loop cannot fire). -/
theorem scaling_lt_one (ctx : StepContext) (tol err : ℚ) (htol : 0 ≤ tol)
    (herr : tol < err)
    (hpow : ∀ x, 0 ≤ x → x < 1 → ctx.pow025 x < 1) :
    stepSizeScaling ctx tol err < 1 := by
  unfold stepSizeScaling
  have herr0 : 0 < err := lt_of_le_of_lt htol herr
  have habs : |2 * err| = 2 * err := abs_of_pos (by linarith)
  have hr0 : 0 ≤ tol / |2 * err| := div_nonneg htol (abs_nonneg _)
  have hr1 : tol / |2 * err| < 1 := by
    rw [habs, div_lt_one (by linarith)]
    linarith
  have hp := hpow _ hr0 hr1
  have hm : max (1/4 : ℚ) (ctx.pow025 (tol / |2 * err|)) < 1 :=
    max_lt (by norm_num) hp
  exact lt_of_le_of_lt (min_le_left _ _) hm

/-- When every trial fails, the loop reaches the 100-attempt hotfix and
forces the step to `navDir * 1` (mm), for any remaining fuel. -/
theorem rk_all_fail_forced (ctx : StepContext) (opts : PropOptions) (nd : ℚ)
    (htol : 0 ≤ opts.tolerance)
    (hpow : ∀ x, 0 ≤ x → x < 1 → ctx.pow025 x < 1)
    (hfail : ∀ h', opts.tolerance < errorEstimate ctx h' (ctx.stages h'))
    (hcut : opts.stepSizeCutOff = 0) :
    ∀ fuel h, ∃ hT s,
      rkStepLoop ctx opts nd h (fuel+1) = RKLoopOutcome.forced (nd * 1) hT s := by
  intro fuel
  induction fuel with
  | zero =>
    intro h
    refine ⟨h, ctx.stages h, ?_⟩
    rw [rkStepLoop]
    have hsc : stepSizeScaling ctx opts.tolerance
        (errorEstimate ctx h (ctx.stages h)) ≠ 1 :=
      ne_of_lt (scaling_lt_one ctx _ _ htol (hfail h) hpow)
    simp only [if_neg (not_le.mpr (hfail h)), if_neg hsc, eq_self_iff_true,
      if_true]
  | succ f ih =>
    intro h
    have hsc : stepSizeScaling ctx opts.tolerance
        (errorEstimate ctx h (ctx.stages h)) ≠ 1 :=
      ne_of_lt (scaling_lt_one ctx _ _ htol (hfail h) hpow)
    obtain ⟨hT, s, heq⟩ :=
      ih (h * stepSizeScaling ctx opts.tolerance
        (errorEstimate ctx h (ctx.stages h)))
    refine ⟨hT, s, ?_⟩
    rw [rkStepLoop]
    have hnc : ¬(h * stepSizeScaling ctx opts.tolerance
        (errorEstimate ctx h (ctx.stages h)) *
        (h * stepSizeScaling ctx opts.tolerance
          (errorEstimate ctx h (ctx.stages h))) <
        opts.stepSizeCutOff * opts.stepSizeCutOff) := by
      rw [hcut]
      simp only [mul_zero]
      exact not_lt.mpr (mul_self_nonneg _)
    simp only [if_neg (not_le.mpr (hfail h)), if_neg hsc,
      if_neg (Nat.succ_ne_zero f), if_neg hnc]
    exact heq

/-- When a failing trial's rescaled candidate collapses below the
cutoff, the loop reports the stall, for any remaining fuel of at least
two (so that the 100-attempt hotfix is not hit first). -/
theorem rk_stalled (ctx : StepContext) (opts : PropOptions) (nd h : ℚ)
    (htol : 0 ≤ opts.tolerance)
    (hpow : ∀ x, 0 ≤ x → x < 1 → ctx.pow025 x < 1)
    (hfail : opts.tolerance < errorEstimate ctx h (ctx.stages h))
    (hcut : h * stepSizeScaling ctx opts.tolerance
        (errorEstimate ctx h (ctx.stages h)) *
        (h * stepSizeScaling ctx opts.tolerance
          (errorEstimate ctx h (ctx.stages h))) <
        opts.stepSizeCutOff * opts.stepSizeCutOff) :
    ∀ fuel, rkStepLoop ctx opts nd h (fuel+2) = RKLoopOutcome.stalled := by
  intro fuel
  have hsc : stepSizeScaling ctx opts.tolerance
      (errorEstimate ctx h (ctx.stages h)) ≠ 1 :=
    ne_of_lt (scaling_lt_one ctx _ _ htol hfail hpow)
  rw [rkStepLoop]
  simp only [if_neg (not_le.mpr hfail), if_neg hsc,
    if_neg (Nat.succ_ne_zero fuel), if_pos hcut]

/-- A renormalized vector has unit squared norm whenever the model
square root is exact and the vector is not null. -/
theorem renormalize_unit (sq : ℚ → ℚ) (u : Vec3)
    (hsq : sq (Matrix.dotProduct u u) * sq (Matrix.dotProduct u u) =
      Matrix.dotProduct u u)
    (hne : Matrix.dotProduct u u ≠ 0) :
    Matrix.dotProduct (renormalize sq u) (renormalize sq u) = 1 := by
  have ha : sq (Matrix.dotProduct u u) ≠ 0 := by
    intro h0
    exact hne (by rw [← hsq, h0, mul_zero])
  unfold renormalize
  rw [Matrix.smul_dotProduct, Matrix.dotProduct_smul, smul_eq_mul,
    smul_eq_mul, ← mul_assoc, ← mul_inv, hsq, inv_mul_cancel₀ hne]

/-- The fixture loop accepts the first trial (zero stages give the
floored error estimate 1e-20, below the fixture tolerance 1). -/
theorem rkLoop_accepts_immediately :
    rkStepLoop ctx0 opts0 st0.navDir st0.stepSize 100 =
      RKLoopOutcome.accepted 1 (ctx0.stages 1) := by
  show rkStepLoop ctx0 opts0 st0.navDir st0.stepSize (99+1) = _
  rw [rkStepLoop]
  rw [if_pos]
  · norm_num [st0]
  · norm_num [errorEstimate, l1norm, ctx0, opts0, st0]

end ActsSpec

namespace ActsSpec

/-! ## Claim theorems: EigenStepper::step -/

/-- C3: in every Runge-Kutta trial the local truncation error estimate is
`h^2 * |k1 - k2 - k3 + k4|_1` floored at 1e-20; whenever the estimate
exceeds the tolerance the step size is multiplied by
`min(max(0.25, (tol/(2*err))^0.25), 4.0)` and the trial is retried
(unless the rescaled candidate falls below the cutoff); and the number
of retries is bounded: when every trial fails (and the cutoff does not
intervene) the loop forces a fixed `navDir * 1` (1 mm) step after 100
attempts. -/
theorem rk_error_estimate_and_retry (ctx : StepContext) (opts : PropOptions)
    (nd h : ℚ) (fuel : ℕ)
    (htol : 0 ≤ opts.tolerance)
    (hpow : ∀ x, 0 ≤ x → x < 1 → ctx.pow025 x < 1) :
    (∀ h' s', errorEstimate ctx h' s' =
      max (h'^2 * l1norm (ctx.k1 - s'.k2 - s'.k3 + s'.k4)) (1/10^20)) ∧
    (∀ e, 0 < e → stepSizeScaling ctx opts.tolerance e =
      min (max (1/4) (ctx.pow025 (opts.tolerance / (2 * e)))) 4) ∧
    (opts.tolerance < errorEstimate ctx h (ctx.stages h) →
      ¬(h * stepSizeScaling ctx opts.tolerance
          (errorEstimate ctx h (ctx.stages h)) *
        (h * stepSizeScaling ctx opts.tolerance
          (errorEstimate ctx h (ctx.stages h))) <
        opts.stepSizeCutOff * opts.stepSizeCutOff) →
      rkStepLoop ctx opts nd h (fuel+2) =
        rkStepLoop ctx opts nd
          (h * stepSizeScaling ctx opts.tolerance
            (errorEstimate ctx h (ctx.stages h))) (fuel+1)) ∧
    ((∀ h', opts.tolerance < errorEstimate ctx h' (ctx.stages h')) →
      opts.stepSizeCutOff = 0 →
      ∃ hT s, rkStepLoop ctx opts nd h 100 =
        RKLoopOutcome.forced (nd * 1) hT s) := by
  refine ⟨fun _ _ => rfl, ?_, ?_, ?_⟩
  · intro e he
    unfold stepSizeScaling
    rw [abs_of_pos (by linarith)]
  · intro hfail hcut
    have hsc : stepSizeScaling ctx opts.tolerance
        (errorEstimate ctx h (ctx.stages h)) ≠ 1 :=
      ne_of_lt (scaling_lt_one ctx _ _ htol hfail hpow)
    rw [rkStepLoop]
    simp only [if_neg (not_le.mpr hfail), if_neg hsc,
      if_neg (Nat.succ_ne_zero fuel), if_neg hcut]
  · intro hfail hcut
    exact rk_all_fail_forced ctx opts nd htol hpow hfail hcut 99 h

/-- Witness for C3 at the fixture context with tolerance 0 (every trial
fails since the estimate is floored at the positive 1e-20). -/
theorem rk_error_estimate_and_retry_witness :
    (0 ≤ (0:ℚ)) ∧ (∀ x : ℚ, 0 ≤ x → x < 1 → ctx0.pow025 x < 1) ∧
    ((∀ h' s', errorEstimate ctx0 h' s' =
      max (h'^2 * l1norm (ctx0.k1 - s'.k2 - s'.k3 + s'.k4)) (1/10^20)) ∧
    (∀ e, 0 < e → stepSizeScaling ctx0 (PropOptions.mk 0 0 0).tolerance e =
      min (max (1/4) (ctx0.pow025 ((PropOptions.mk 0 0 0).tolerance / (2 * e)))) 4) ∧
    ((PropOptions.mk 0 0 0).tolerance <
        errorEstimate ctx0 1 (ctx0.stages 1) →
      ¬(1 * stepSizeScaling ctx0 (PropOptions.mk 0 0 0).tolerance
          (errorEstimate ctx0 1 (ctx0.stages 1)) *
        (1 * stepSizeScaling ctx0 (PropOptions.mk 0 0 0).tolerance
          (errorEstimate ctx0 1 (ctx0.stages 1))) <
        (PropOptions.mk 0 0 0).stepSizeCutOff *
          (PropOptions.mk 0 0 0).stepSizeCutOff) →
      rkStepLoop ctx0 (PropOptions.mk 0 0 0) 1 1 (3+2) =
        rkStepLoop ctx0 (PropOptions.mk 0 0 0) 1
          (1 * stepSizeScaling ctx0 (PropOptions.mk 0 0 0).tolerance
            (errorEstimate ctx0 1 (ctx0.stages 1))) (3+1)) ∧
    ((∀ h', (PropOptions.mk 0 0 0).tolerance <
        errorEstimate ctx0 h' (ctx0.stages h')) →
      (PropOptions.mk 0 0 0).stepSizeCutOff = 0 →
      ∃ hT s, rkStepLoop ctx0 (PropOptions.mk 0 0 0) 1 1 100 =
        RKLoopOutcome.forced ((1:ℚ) * 1) hT s)) := by
  have hpow : ∀ x : ℚ, 0 ≤ x → x < 1 → ctx0.pow025 x < 1 := by
    intro x _ _
    norm_num [ctx0]
  exact ⟨le_refl 0, hpow,
    rk_error_estimate_and_retry ctx0 (PropOptions.mk 0 0 0) 1 1 3
      (le_refl 0) hpow⟩

/-- C4: when the adaptation loop accepts a trial of size `h`, the step
updates the position by `h*dir + h^2/6*(k1+k2+k3)`, replaces the
direction by `h/6*(k1+2*(k2+k3)+k4)` renormalized to unit length (and
renormalization also happens on the forced last-resort path, i.e. after
every accepted step), adds `h` to the accumulated path length, and, when
covariance transport is active, replaces the transport jacobian by
`D * jacTransport` with `D` the step transport matrix built from the
same `k1..k4` quantities. -/
theorem rk_accepted_step (ctx : StepContext) (opts : PropOptions)
    (st : StepState) (h : ℚ) (s : RKStages)
    (hloop : rkStepLoop ctx opts st.navDir st.stepSize 100 =
      RKLoopOutcome.accepted h s) :
    ∃ st', eigenStep ctx opts st = Except.ok (h, st') ∧
      st'.pos = st.pos + h • st.dir + (h*h/6) • (ctx.k1 + s.k2 + s.k3) ∧
      st'.dir = renormalize ctx.sqrt (dirUpdate ctx h s st.dir) ∧
      st'.pathAccumulated = st.pathAccumulated + h ∧
      (st.covTransport = true →
        st'.jacTransport = ctx.transportD h s * st.jacTransport) ∧
      (st.covTransport = false → st'.jacTransport = st.jacTransport) ∧
      (ctx.sqrt (Matrix.dotProduct (dirUpdate ctx h s st.dir)
          (dirUpdate ctx h s st.dir)) *
        ctx.sqrt (Matrix.dotProduct (dirUpdate ctx h s st.dir)
          (dirUpdate ctx h s st.dir)) =
        Matrix.dotProduct (dirUpdate ctx h s st.dir)
          (dirUpdate ctx h s st.dir) →
        Matrix.dotProduct (dirUpdate ctx h s st.dir)
          (dirUpdate ctx h s st.dir) ≠ 0 →
        Matrix.dotProduct st'.dir st'.dir = 1) ∧
      (∀ hF hT s', ((rkAccept ctx st hF hT s').2).dir =
        renormalize ctx.sqrt (dirUpdate ctx hF s' st.dir)) := by
  refine ⟨(rkAccept ctx st h h s).2, ?_, ?_, ?_, ?_, ?_, ?_, ?_, ?_⟩
  · unfold eigenStep
    rw [hloop]
    rfl
  · simp [rkAccept]
  · simp [rkAccept]
  · simp [rkAccept]
  · intro hcov
    simp [rkAccept, hcov]
  · intro hcov
    simp [rkAccept, hcov]
  · intro hsq hne
    have hd : ((rkAccept ctx st h h s).2).dir =
        renormalize ctx.sqrt (dirUpdate ctx h s st.dir) := by
      simp [rkAccept]
    rw [hd]
    exact renormalize_unit ctx.sqrt _ hsq hne
  · intro hF hT s'
    simp [rkAccept]

/-- Witness for C4 at the fixture state: the first trial is accepted
with step size 1. -/
theorem rk_accepted_step_witness :
    rkStepLoop ctx0 opts0 st0.navDir st0.stepSize 100 =
      RKLoopOutcome.accepted 1 (ctx0.stages 1) ∧
    (∃ st', eigenStep ctx0 opts0 st0 = Except.ok (1, st') ∧
      st'.pos = st0.pos + (1:ℚ) • st0.dir +
        ((1:ℚ)*1/6) • (ctx0.k1 + (ctx0.stages 1).k2 + (ctx0.stages 1).k3) ∧
      st'.dir = renormalize ctx0.sqrt
        (dirUpdate ctx0 1 (ctx0.stages 1) st0.dir) ∧
      st'.pathAccumulated = st0.pathAccumulated + 1 ∧
      (st0.covTransport = true →
        st'.jacTransport = ctx0.transportD 1 (ctx0.stages 1) *
          st0.jacTransport) ∧
      (st0.covTransport = false → st'.jacTransport = st0.jacTransport) ∧
      (ctx0.sqrt (Matrix.dotProduct
          (dirUpdate ctx0 1 (ctx0.stages 1) st0.dir)
          (dirUpdate ctx0 1 (ctx0.stages 1) st0.dir)) *
        ctx0.sqrt (Matrix.dotProduct
          (dirUpdate ctx0 1 (ctx0.stages 1) st0.dir)
          (dirUpdate ctx0 1 (ctx0.stages 1) st0.dir)) =
        Matrix.dotProduct (dirUpdate ctx0 1 (ctx0.stages 1) st0.dir)
          (dirUpdate ctx0 1 (ctx0.stages 1) st0.dir) →
        Matrix.dotProduct (dirUpdate ctx0 1 (ctx0.stages 1) st0.dir)
          (dirUpdate ctx0 1 (ctx0.stages 1) st0.dir) ≠ 0 →
        Matrix.dotProduct st'.dir st'.dir = 1) ∧
      (∀ hF hT s', ((rkAccept ctx0 st0 hF hT s').2).dir =
        renormalize ctx0.sqrt (dirUpdate ctx0 hF s' st0.dir))) :=
  ⟨rkLoop_accepts_immediately,
   rk_accepted_step ctx0 opts0 st0 1 (ctx0.stages 1)
     rkLoop_accepts_immediately⟩

/-- C5: when a failing trial's rescaled candidate step satisfies
`h^2 < stepSizeCutOff^2`, `EigenStepper::step` terminates and returns
the `StepSizeStalled` error as a result value to the caller (the loop
is a total function, so it cannot run forever). -/
theorem step_size_stall_error (ctx : StepContext) (opts : PropOptions)
    (st : StepState)
    (htol : 0 ≤ opts.tolerance)
    (hpow : ∀ x, 0 ≤ x → x < 1 → ctx.pow025 x < 1)
    (hfail : opts.tolerance <
      errorEstimate ctx st.stepSize (ctx.stages st.stepSize))
    (hcut : st.stepSize * stepSizeScaling ctx opts.tolerance
        (errorEstimate ctx st.stepSize (ctx.stages st.stepSize)) *
        (st.stepSize * stepSizeScaling ctx opts.tolerance
          (errorEstimate ctx st.stepSize (ctx.stages st.stepSize))) <
        opts.stepSizeCutOff * opts.stepSizeCutOff) :
    eigenStep ctx opts st = Except.error EigenStepperError.StepSizeStalled ∧
    (∀ fuel nd h', opts.tolerance < errorEstimate ctx h' (ctx.stages h') →
      h' * stepSizeScaling ctx opts.tolerance
          (errorEstimate ctx h' (ctx.stages h')) *
        (h' * stepSizeScaling ctx opts.tolerance
          (errorEstimate ctx h' (ctx.stages h'))) <
        opts.stepSizeCutOff * opts.stepSizeCutOff →
      rkStepLoop ctx opts nd h' (fuel+2) = RKLoopOutcome.stalled) := by
  constructor
  · unfold eigenStep
    rw [show (100:ℕ) = 98+2 from rfl,
      rk_stalled ctx opts st.navDir st.stepSize htol hpow hfail hcut 98]
  · intro fuel nd h' hf hc
    exact rk_stalled ctx opts nd h' htol hpow hf hc fuel

/-- Witness for C5 at the fixture state with tolerance 0 and cutoff 1:
the first trial fails on the floored error estimate and the rescaled
step 1/2 collapses below the cutoff. -/
theorem step_size_stall_error_witness :
    (0 ≤ optsStall.tolerance) ∧
    (optsStall.tolerance <
      errorEstimate ctx0 st0.stepSize (ctx0.stages st0.stepSize)) ∧
    (st0.stepSize * stepSizeScaling ctx0 optsStall.tolerance
        (errorEstimate ctx0 st0.stepSize (ctx0.stages st0.stepSize)) *
        (st0.stepSize * stepSizeScaling ctx0 optsStall.tolerance
          (errorEstimate ctx0 st0.stepSize (ctx0.stages st0.stepSize))) <
        optsStall.stepSizeCutOff * optsStall.stepSizeCutOff) ∧
    eigenStep ctx0 optsStall st0 =
      Except.error EigenStepperError.StepSizeStalled := by
  have hpow : ∀ x : ℚ, 0 ≤ x → x < 1 → ctx0.pow025 x < 1 := by
    intro x _ _
    norm_num [ctx0]
  have htol : (0:ℚ) ≤ optsStall.tolerance := by norm_num [optsStall]
  have hfail : optsStall.tolerance <
      errorEstimate ctx0 st0.stepSize (ctx0.stages st0.stepSize) := by
    norm_num [optsStall, errorEstimate, l1norm, ctx0, st0]
  have hcut : st0.stepSize * stepSizeScaling ctx0 optsStall.tolerance
      (errorEstimate ctx0 st0.stepSize (ctx0.stages st0.stepSize)) *
      (st0.stepSize * stepSizeScaling ctx0 optsStall.tolerance
        (errorEstimate ctx0 st0.stepSize (ctx0.stages st0.stepSize))) <
      optsStall.stepSizeCutOff * optsStall.stepSizeCutOff := by
    norm_num [optsStall, stepSizeScaling, ctx0, st0]
  exact ⟨htol, hfail, hcut,
    (step_size_stall_error ctx0 optsStall st0 htol hpow hfail hcut).1⟩

end ActsSpec

namespace ActsSpec

/-! ## Claim theorems: state construction and straight-line stepper -/

/-- C7 counterexample: no clamping happens at construction.  With the
model square root (exact at the two arguments that occur, 25 and 0), a
state built from momentum (3,4,0) and charge 1e-16 stores
`q/p = 1/(5*10^16)`, far below the claimed floor 1e-15, and a state
built from a zero momentum vector keeps the zero-length direction. -/
theorem state_construction_no_clamping_cex :
    |(mkSLState (fun x => if x = 25 then 5 else 0) 0 0 (vec3 3 4 0)
        (1/10^16) 0 1 1 none).q /
      (mkSLState (fun x => if x = 25 then 5 else 0) 0 0 (vec3 3 4 0)
        (1/10^16) 0 1 1 none).p| < 1/10^15 ∧
    (mkSLState (fun x => if x = 25 then 5 else 0) 0 0 0 1 0 1 1 none).dir
      = 0 := by
  constructor
  · have hdot : Matrix.dotProduct (vec3 3 4 0) (vec3 3 4 0) = 25 := by
      norm_num [vec3, Matrix.dotProduct, Fin.sum_univ_succ]
    simp only [mkSLState, hdot]
    norm_num [abs_lt]
  · funext i
    simp [mkSLState, Matrix.dotProduct]

/-- C7 amended: the state constructor applies no floor of any kind: the
charge is stored as given, the momentum magnitude is the (model) norm of
the momentum and the direction is the momentum divided by that norm; and
`EigenStepper::update` likewise copies position, direction, momentum
and time unchanged.  Degenerate values (zero q/p, zero-length direction)
pass through undefended. -/
theorem state_construction_unclamped (sq : ℚ → ℚ)
    (jacG : Matrix (Fin 8) (Fin 6) ℚ) (pos mom : Vec3)
    (charge time ndir ssize : ℚ) (covOpt : Option BoundMat)
    (st : StepState) (upos udir : Vec3) (up ut : ℚ) :
    (mkSLState sq jacG pos mom charge time ndir ssize covOpt).q = charge ∧
    (mkSLState sq jacG pos mom charge time ndir ssize covOpt).p =
      sq (Matrix.dotProduct mom mom) ∧
    (mkSLState sq jacG pos mom charge time ndir ssize covOpt).dir =
      (sq (Matrix.dotProduct mom mom))⁻¹ • mom ∧
    (updateFree st upos udir up ut).p = up ∧
    (updateFree st upos udir up ut).dir = udir ∧
    (updateFree st upos udir up ut).pos = upos ∧
    (updateFree st upos udir up ut).dt = ut :=
  ⟨rfl, rfl, rfl, rfl, rfl, rfl, rfl⟩

/-- The translation matrix of the straight-line step equals the identity
plus the `h`-scaled translation block plus the time-row entry. -/
theorem slD_eq (h c : ℚ) :
    slD h c = 1 + h • translationBlock + c • timeBlock := by
  ext i j
  simp [slD, translationBlock, timeBlock, Matrix.one_apply, mul_ite,
    mul_one, mul_zero]

/-- C8: every invocation of `StraightLineStepper::step` advances the
position by exactly `h * dir`, leaves the direction unchanged, adds `h`
to the accumulated path length, and, when covariance transport is
active, left-multiplies the transport jacobian by the identity plus the
`h`-scaled translation block plus the time-row entry; and the
straight-line stepper offers the same interface record (step, update,
covarianceTransport in both overloads, boundState, curvilinearState) as
the Runge-Kutta stepper, whose shared operations coincide. -/
theorem straight_line_step_behavior (sq : ℚ → ℚ) (curvTol : ℚ)
    (opts : PropOptions) (st : StepState) :
    (∃ st', (slStepperOps sq curvTol).step opts st =
        Except.ok (st.stepSize, st') ∧
      st'.pos = st.pos + st.stepSize • st.dir ∧
      st'.dir = st.dir ∧
      st'.pathAccumulated = st.pathAccumulated + st.stepSize ∧
      (st.covTransport = true →
        st'.jacTransport =
          (1 + st.stepSize • translationBlock +
            (st.stepSize * opts.mass * opts.mass /
              (st.p * sq (1 + opts.mass / st.p * (opts.mass / st.p)))) •
            timeBlock) * st.jacTransport) ∧
      (st.covTransport = false → st'.jacTransport = st.jacTransport)) ∧
    (∀ ctx : StepContext,
      (eigenStepperOps ctx).update = (slStepperOps sq curvTol).update ∧
      (eigenStepperOps ctx).covarianceTransport =
        (slStepperOps sq curvTol).covarianceTransport ∧
      (eigenStepperOps ctx).covarianceTransportSurf =
        (slStepperOps sq curvTol).covarianceTransportSurf) := by
  refine ⟨?_, fun ctx => ⟨rfl, rfl, rfl⟩⟩
  cases hcov : st.covTransport
  · refine ⟨{ st with
        pos := st.pos + st.stepSize • st.dir
        dt := st.dt + st.stepSize *
          sq (1 + opts.mass / st.p * (opts.mass / st.p))
        pathAccumulated := st.pathAccumulated + st.stepSize },
      ?_, rfl, rfl, rfl, ?_, fun _ => rfl⟩
    · show slStep sq opts st = _
      unfold slStep
      rw [hcov]
      simp only [Bool.false_eq_true, if_false]
    · intro hc
      exact absurd hc (by simp [hcov])
  · refine ⟨{ st with
        pos := st.pos + st.stepSize • st.dir
        dt := st.dt + st.stepSize *
          sq (1 + opts.mass / st.p * (opts.mass / st.p))
        jacTransport := slD st.stepSize (st.stepSize * opts.mass * opts.mass /
          (st.p * sq (1 + opts.mass / st.p * (opts.mass / st.p)))) *
          st.jacTransport
        derivative := setSLDerivative st.derivative st.dir
          (sq (1 + opts.mass / st.p * (opts.mass / st.p)))
        pathAccumulated := st.pathAccumulated + st.stepSize },
      ?_, rfl, rfl, rfl, ?_, ?_⟩
    · show slStep sq opts st = _
      unfold slStep
      rw [hcov]
      simp only [if_true]
    · intro _
      show slD _ _ * st.jacTransport = _
      rw [slD_eq]
    · intro hc
      exact absurd hc (by simp [hcov])

end ActsSpec

namespace ActsSpec

/-! ## Claim theorem: propagation additivity (spec-modelled) -/

/-- The free state after `n` propagation steps is the `n`-fold iterate. -/
theorem specPropagateN_free (f : FreeVec → FreeVec) (D : FreeVec → FreeMat) :
    ∀ (n : ℕ) (s : PropState),
      (specPropagateN f D n s).free = freeIter f n s.free := by
  intro n
  induction n with
  | zero => intro s; rfl
  | succ k ih => intro s; exact ih (specPropStep f D s)

/-- Propagation steps do not touch the covariance (it is folded only at
a binding). -/
theorem specPropagateN_cov (f : FreeVec → FreeVec) (D : FreeVec → FreeMat) :
    ∀ (n : ℕ) (s : PropState), (specPropagateN f D n s).cov = s.cov := by
  intro n
  induction n with
  | zero => intro s; rfl
  | succ k ih => intro s; exact ih (specPropStep f D s)

/-- The jacobian accumulated over `n` steps is the step-product times
the initial jacobian. -/
theorem specPropagateN_jac (f : FreeVec → FreeVec) (D : FreeVec → FreeMat) :
    ∀ (n : ℕ) (s : PropState),
      (specPropagateN f D n s).jac = jacProd f D n s.free * s.jac := by
  intro n
  induction n with
  | zero => intro s; exact (one_mul s.jac).symm
  | succ k ih =>
    intro s
    show (specPropagateN f D k (specPropStep f D s)).jac = _
    rw [ih (specPropStep f D s)]
    show jacProd f D k (f s.free) * (D s.free * s.jac) = _
    rw [← Matrix.mul_assoc]
    rfl

/-- Iterates compose additively. -/
theorem freeIter_add (f : FreeVec → FreeVec) :
    ∀ (n m : ℕ) (x : FreeVec),
      freeIter f (n+m) x = freeIter f m (freeIter f n x) := by
  intro n
  induction n with
  | zero =>
    intro m x
    rw [Nat.zero_add]
    rfl
  | succ k ih =>
    intro m x
    rw [Nat.succ_add]
    show freeIter f (k+m) (f x) = _
    rw [ih m (f x)]
    rfl

/-- The jacobian step-product composes multiplicatively over a split of
the step count. -/
theorem jacProd_add (f : FreeVec → FreeVec) (D : FreeVec → FreeMat) :
    ∀ (n m : ℕ) (x : FreeVec),
      jacProd f D (n+m) x =
        jacProd f D m (freeIter f n x) * jacProd f D n x := by
  intro n
  induction n with
  | zero =>
    intro m x
    rw [Nat.zero_add]
    exact (Matrix.mul_one (jacProd f D m x)).symm
  | succ k ih =>
    intro m x
    rw [Nat.succ_add]
    show jacProd f D (k+m) (f x) * D x = _
    rw [ih m (f x), Matrix.mul_assoc]
    rfl

/-- C9 (spec-modelled): for every start state with covariance `C`,
propagating by `n + m` steps in one go and binding at the end yields
exactly the same end free state and exactly the same end covariance as
propagating `n` steps, stopping (binding with jacobian reset) and
resuming for the remaining `m` steps; in particular both agree within
the relative tolerance 1e-3 of the regression tests. -/
theorem propagation_additive (f : FreeVec → FreeVec) (D : FreeVec → FreeMat)
    (x : FreeVec) (C : FreeMat) (n m : ℕ) :
    (specBind (specPropagateN f D (n+m) ⟨x, C, 1⟩)).free =
      (specBind (specPropagateN f D m
        (specBind (specPropagateN f D n ⟨x, C, 1⟩)))).free ∧
    (specBind (specPropagateN f D (n+m) ⟨x, C, 1⟩)).cov =
      (specBind (specPropagateN f D m
        (specBind (specPropagateN f D n ⟨x, C, 1⟩)))).cov ∧
    (∀ i j, |(specBind (specPropagateN f D (n+m) ⟨x, C, 1⟩)).cov i j -
        (specBind (specPropagateN f D m
          (specBind (specPropagateN f D n ⟨x, C, 1⟩)))).cov i j| ≤
      (1/1000) * |(specBind (specPropagateN f D m
        (specBind (specPropagateN f D n ⟨x, C, 1⟩)))).cov i j|) := by
  have hfree1 : (specPropagateN f D (n+m) ⟨x, C, 1⟩).free =
      freeIter f (n+m) x := specPropagateN_free f D (n+m) _
  have hmidfree : (specPropagateN f D n (⟨x, C, 1⟩ : PropState)).free =
      freeIter f n x := specPropagateN_free f D n _
  have hfree2 : (specPropagateN f D m
      (specBind (specPropagateN f D n ⟨x, C, 1⟩))).free =
      freeIter f m (freeIter f n x) := by
    rw [specPropagateN_free f D m]
    show freeIter f m (specPropagateN f D n (⟨x, C, 1⟩ : PropState)).free = _
    rw [hmidfree]
  have hcovEq : (specBind (specPropagateN f D (n+m) ⟨x, C, 1⟩)).cov =
      (specBind (specPropagateN f D m
        (specBind (specPropagateN f D n ⟨x, C, 1⟩)))).cov := by
    show (specPropagateN f D (n+m) ⟨x, C, 1⟩).jac *
        (specPropagateN f D (n+m) ⟨x, C, 1⟩).cov *
        ((specPropagateN f D (n+m) ⟨x, C, 1⟩).jac).transpose = _
    rw [specPropagateN_jac f D (n+m), specPropagateN_cov f D (n+m)]
    show jacProd f D (n+m) x * (1:FreeMat) * C *
        (jacProd f D (n+m) x * (1:FreeMat)).transpose = _
    rw [mul_one, jacProd_add f D n m x]
    have hmid : specBind (specPropagateN f D n ⟨x, C, 1⟩) =
        ⟨freeIter f n x, jacProd f D n x * C * (jacProd f D n x).transpose,
          1⟩ := by
      show (⟨(specPropagateN f D n ⟨x, C, 1⟩).free,
        (specPropagateN f D n ⟨x, C, 1⟩).jac *
          (specPropagateN f D n ⟨x, C, 1⟩).cov *
          ((specPropagateN f D n ⟨x, C, 1⟩).jac).transpose, 1⟩ : PropState) = _
      rw [hmidfree, specPropagateN_jac f D n, specPropagateN_cov f D n]
      show (⟨freeIter f n x, jacProd f D n x * (1:FreeMat) * C *
        (jacProd f D n x * (1:FreeMat)).transpose, 1⟩ : PropState) = _
      rw [mul_one]
    rw [hmid]
    show jacProd f D m (freeIter f n x) * jacProd f D n x * C *
        (jacProd f D m (freeIter f n x) * jacProd f D n x).transpose =
      (specPropagateN f D m
        ⟨freeIter f n x,
          jacProd f D n x * C * (jacProd f D n x).transpose, 1⟩).jac *
      (specPropagateN f D m
        ⟨freeIter f n x,
          jacProd f D n x * C * (jacProd f D n x).transpose, 1⟩).cov *
      ((specPropagateN f D m
        ⟨freeIter f n x,
          jacProd f D n x * C * (jacProd f D n x).transpose, 1⟩).jac).transpose
    rw [specPropagateN_jac f D m, specPropagateN_cov f D m]
    show jacProd f D m (freeIter f n x) * jacProd f D n x * C *
        (jacProd f D m (freeIter f n x) * jacProd f D n x).transpose =
      jacProd f D m (freeIter f n x) * (1:FreeMat) *
        (jacProd f D n x * C * (jacProd f D n x).transpose) *
      (jacProd f D m (freeIter f n x) * (1:FreeMat)).transpose
    rw [mul_one, Matrix.transpose_mul]
    simp only [Matrix.mul_assoc]
  refine ⟨?_, hcovEq, ?_⟩
  · show (specPropagateN f D (n+m) ⟨x, C, 1⟩).free =
      (specPropagateN f D m (specBind (specPropagateN f D n ⟨x, C, 1⟩))).free
    rw [hfree1, hfree2, freeIter_add]
  · intro i j
    rw [hcovEq, sub_self, abs_zero]
    positivity

end ActsSpec
